import Mathlib

/-!
# mini-tds — verification of the rule-matching / redirect / config-cache worker

Shallow embedding of the `investblog/mini-tds` Cloudflare worker sources.

The repository contains the main worker (`src/worker.ts`, the richest variant:
`matchRoute`, `applyRedirect`, `hydrateCache`, `handleRoutesPut`, `computeEtag`,
`detectDevice`) together with two earlier variants of the same router kept in the
tree: the variant with `matchPathSimple` / `matchRule` and the
`__pathToParam` slug guard (called `legacy` below), and the variant with
`classifyDevice` / `matchesCountry` / `wildcardMatch` that stamps
`Cache-Control: no-store` onto its redirect responses (called `variant` below).

JavaScript regular-expression evaluation and SHA-256 are platform library
calls; they are modelled as explicit function parameters (`RegexExec`,
`RegexTest`, and the hash parameter of `computeEtag`).  An invalid regular
expression is caught by the source and treated as a non-match, which the
oracle encodes by returning `none` / `false` for that pattern.  `Date.now()`
and `new Date().toISOString()` are modelled as explicit time parameters.
JS strings are modelled as Lean `String` (operations implemented over
`String.data` character lists).
-/

namespace MiniTds

/-! ## JS string primitives (modelled over character lists) -/

/-- JS `haystack.startsWith(needle)`. -/
def strStartsWith (s pfx : String) : Bool :=
  pfx.data.isPrefixOf s.data

/-- JS `haystack.endsWith(needle)`. -/
def strEndsWith (s sfx : String) : Bool :=
  sfx.data.isSuffixOf s.data

/-- JS `s.slice(0, -1)` (drop the last character). -/
def strDropLast (s : String) : String :=
  ⟨s.data.dropLast⟩

/-- JS `s.slice(n)` (drop the first `n` characters). -/
def strDropN (s : String) (n : Nat) : String :=
  ⟨s.data.drop n⟩

/-- JS `s.toUpperCase()` (ASCII model). -/
def strUpper (s : String) : String :=
  ⟨s.data.map Char.toUpper⟩

/-- JS `s.toLowerCase()` (ASCII model). -/
def strLower (s : String) : String :=
  ⟨s.data.map Char.toLower⟩

/-- JS `s.trim()`. -/
def strTrim (s : String) : String :=
  ⟨(s.data.dropWhile Char.isWhitespace).reverse.dropWhile Char.isWhitespace |>.reverse⟩

/-- The needle occurs in the haystack starting at position `i`. -/
def occursAt (hay needle : List Char) (i : Nat) : Bool :=
  needle.isPrefixOf (hay.drop i)

/-- Substring occurrence (JS `s.includes(t)`). -/
def strIncludes (s t : String) : Bool :=
  (List.range (s.data.length + 1)).any fun i => occursAt s.data t.data i

/-- Case-insensitive substring occurrence. -/
def strIncludesCI (s t : String) : Bool :=
  strIncludes (strLower s) (strLower t)

/-- Split a character list at every occurrence of `c` (keeping empty
pieces), the JS `s.split(c)` behaviour. -/
def splitChar : List Char → Char → List (List Char)
  | [], _ => [[]]
  | x :: xs, c =>
    match splitChar xs c with
    | [] => [[]]
    | s :: rest => if x = c then [] :: s :: rest else (x :: s) :: rest

/-- JS `s.split("/")`. -/
def strSplitSlash (s : String) : List String :=
  (splitChar s.data '/').map fun l => (⟨l⟩ : String)

/-- JS regex word character (`\w` = `[A-Za-z0-9_]`). -/
def wordChar (c : Char) : Bool :=
  c.isAlphanum || c = '_'

/-- A word-boundary-delimited, case-insensitive occurrence of `needle` in
`hay` (JS `/\bneedle\b/i.test(hay)` for a purely alphanumeric needle). -/
def wordBounded (hay needle : String) : Bool :=
  let h := (strLower hay).data
  let n := (strLower needle).data
  (List.range (h.length + 1)).any fun i =>
    occursAt h n i
      && (i = 0 || !wordChar (h.getD (i - 1) ' '))
      && (i + n.length ≥ h.length || !wordChar (h.getD (i + n.length) ' '))

/-! ## Data model (main worker `src/worker.ts`) -/

/-- `Device = "mobile" | "desktop" | "tablet" | "any"`. -/
inductive Device where
  | mobile
  | desktop
  | tablet
  | any
deriving DecidableEq, Repr

/-- How a device value is spelled in query strings (`String(device)`). -/
def deviceStr : Device → String
  | .mobile => "mobile"
  | .desktop => "desktop"
  | .tablet => "tablet"
  | .any => "any"

/-- `MatchRule.path` is `string | string[]` in the source. -/
inductive StrOrList where
  | str (s : String)
  | list (l : List String)
deriving DecidableEq, Repr

/-- `ensureArray`: wraps a single value into a one-element array,
keeps `undefined` as `undefined`. -/
def ensureArray : Option StrOrList → Option (List String)
  | none => none
  | some (.str s) => some [s]
  | some (.list l) => some l

/-- `MatchRule` (optional criteria; absent criterion matches anything). -/
structure MatchRule where
  path : Option StrOrList := none
  countries : Option (List String) := none
  devices : Option (List Device) := none
  bots : Option Bool := none
deriving DecidableEq, Repr

/-- A value of `RedirectAction.query`: a primitive, `{fromPathGroup}` or
`{literal}` (source checks `"fromPathGroup" in value` first). -/
inductive QueryValue where
  | str (s : String)
  | num (n : Int)
  | bool (b : Bool)
  | fromPathGroup (n : Option Nat)
  | literal (s : Option String)
deriving DecidableEq, Repr

/-- `RedirectAction` (`action.type === "redirect"`).  `target` is the raw
configured URL string, parsed by the platform's `new URL` at execution. -/
structure RedirectAction where
  target : String
  status : Option Nat := none
  query : Option (List (String × QueryValue)) := none
  preserveOriginalQuery : Option Bool := none
  extraQuery : Option (List (String × String)) := none
  appendCountry : Option Bool := none
  appendDevice : Option Bool := none
deriving DecidableEq, Repr

/-- `ResponseAction` (`action.type === "response"`). -/
structure ResponseAction where
  status : Option Nat := none
  headers : Option (List (String × String)) := none
  bodyHtml : Option String := none
  bodyText : Option String := none
deriving DecidableEq, Repr

/-- `RouteAction = RedirectAction | ResponseAction`. -/
inductive RouteAction where
  | redirect (a : RedirectAction)
  | response (a : ResponseAction)
deriving DecidableEq, Repr

/-- `RouteRule`.  The source field `match` is a Lean keyword and is named
`rmatch` here; `executeRoute` guards `if (!action)`, hence the `Option`. -/
structure RouteRule where
  id : String
  enabled : Option Bool := none
  rmatch : MatchRule := {}
  action : Option RouteAction := none
deriving DecidableEq, Repr

/-- `FlagsConfig`. -/
structure FlagsConfig where
  cacheTtlMs : Int
  strictBots : Bool
  yandexBots : List String
  googleBots : List String
  allowedAdminIps : List String
  uiTitle : String
  uiReadonly : Bool
  webhookUrl : Option String := none
deriving DecidableEq, Repr

/-- `DEFAULT_FLAGS`. -/
def DEFAULT_FLAGS : FlagsConfig :=
  { cacheTtlMs := 60000
    strictBots := true
    yandexBots := ["YandexBot", "YandexMobileBot"]
    googleBots := ["Googlebot", "AdsBot-Google-Mobile"]
    allowedAdminIps := []
    uiTitle := "mini-tds admin"
    uiReadonly := false }

/-- `MetadataRecord`. -/
structure MetadataRecord where
  version : String
  updatedAt : String
  updatedBy : String
deriving DecidableEq, Repr

/-- `ConfigBundle` (held by the in-process cache). -/
structure ConfigBundle where
  routes : List RouteRule
  flags : FlagsConfig
  metadata : MetadataRecord
  etag : String
  loadedAt : Int
  expiresAt : Int
deriving DecidableEq, Repr

/-- `AuditEntry`. -/
structure AuditEntry where
  ts : String
  actor : String
  action : String
  prevHash : Option String := none
  newHash : Option String := none
  diffBytes : Option Int := none
  note : Option String := none
  error : Option String := none
deriving DecidableEq, Repr

/-! ## Rule matching (main worker `matchRoute`) -/

/-- Oracle for `new RegExp(pattern)` + `pathname.match(re)`: `none` means the
regex did not match (or failed to compile, which the source's `try/catch`
also turns into a non-match); `some arr` is the JS match array, `arr[0]` the
full match and `arr[i]` capture group `i` (`none` = group did not capture). -/
abbrev RegexExec := String → String → Option (List (Option String))

/-- Oracle for `new RegExp(src).test(pathname)` (invalid regex ⇒ `false`). -/
abbrev RegexTest := String → String → Bool

/-- A successful match: the rule plus the JS match array of the first path
pattern that matched (`null` when the rule has no path criterion). -/
structure MatchContext where
  route : RouteRule
  pathMatch : Option (List (Option String))
deriving DecidableEq, Repr

/-- The path criterion of `matchRoute` (lines 717–734): when patterns are
present and non-empty, `paths.some(...)` tries each pattern in order and
records the first match array; no pattern matching ⇒ the rule fails
(`none`); absent/empty patterns ⇒ criterion passes with `pathMatch = null`. -/
def pathCheck (rx : RegexExec) (paths : Option (List String)) (pathname : String) :
    Option (Option (List (Option String))) :=
  match paths with
  | some ps =>
    if ps.length > 0 then
      match ps.findSome? (fun p => rx p pathname) with
      | some arr => some (some arr)
      | none => none
    else some none
  | none => some none

/-- The countries criterion failure test of `matchRoute` (lines 736–738):
`match.countries && match.countries.length > 0 && !includes(country)`. -/
def countriesFail (cs : Option (List String)) (country : String) : Bool :=
  match cs with
  | some l => l.length > 0 && !l.contains country
  | none => false

/-- The devices criterion failure test of `matchRoute` (lines 739–741):
skipped entirely when the list is absent, empty, or contains `"any"`. -/
def devicesFail (ds : Option (List Device)) (device : Device) : Bool :=
  match ds with
  | some l => l.length > 0 && !l.contains Device.any && !l.contains device
  | none => false

/-- The bots criterion failure test of `matchRoute` (lines 742–745). -/
def botsFail (bs : Option Bool) (isBot : Bool) : Bool :=
  match bs with
  | some b => (b && !isBot) || (!b && isBot)
  | none => false

/-- `matchRoute(rule, pathname, country, device, isBot)` (lines 708–748). -/
def matchRoute (rx : RegexExec) (rule : RouteRule) (pathname country : String)
    (device : Device) (isBot : Bool) : Option MatchContext :=
  if rule.enabled = some false then none
  else
    match pathCheck rx (ensureArray rule.rmatch.path) pathname with
    | none => none
    | some pathMatch =>
      if countriesFail rule.rmatch.countries country then none
      else if devicesFail rule.rmatch.devices device then none
      else if botsFail rule.rmatch.bots isBot then none
      else some ⟨rule, pathMatch⟩

/-! ## URL / response model -/

/-- Model of a platform `URL`: everything before the query string, plus the
ordered `searchParams` list. -/
structure Url where
  base : String
  params : List (String × String)
deriving DecidableEq, Repr

/-- `URLSearchParams.set`: replace the first occurrence of the key (dropping
later duplicates), or append when absent. -/
def setParam : List (String × String) → String → String → List (String × String)
  | [], k, v => [(k, v)]
  | (k', v') :: rest, k, v =>
    if k' = k then (k, v) :: rest.filter (fun p => p.1 ≠ k)
    else (k', v') :: setParam rest k v

/-- `URL.toString()` for the model (query rendered in list order). -/
def urlToString (u : Url) : String :=
  u.base ++
    (if u.params.isEmpty then ""
     else "?" ++ String.intercalate "&" (u.params.map fun p => p.1 ++ "=" ++ p.2))

/-- Model of a platform `Response`. -/
structure HttpResponse where
  status : Nat
  headers : List (String × String)
  body : String := ""
deriving DecidableEq, Repr

/-- `Response.redirect(url, status)`: a response carrying only `Location`. -/
def responseRedirect (url : String) (status : Nat) : HttpResponse :=
  { status := status, headers := [("Location", url)] }

/-- `Headers.has` (header names are case-insensitive). -/
def headersHas (hs : List (String × String)) (k : String) : Bool :=
  hs.any fun p => strLower p.1 = strLower k

/-- `Headers.set` (case-insensitive replace-or-append). -/
def headersSet : List (String × String) → String → String → List (String × String)
  | [], k, v => [(k, v)]
  | (k', v') :: rest, k, v =>
    if strLower k' = strLower k then (k, v) :: rest.filter (fun p => strLower p.1 ≠ strLower k)
    else (k', v') :: headersSet rest k v

/-- What a worker invocation finally does with the request. -/
inductive Outcome where
  | passthrough
  | respond (r : HttpResponse)
deriving DecidableEq, Repr

/-! ## Action execution (main worker `applyRedirect` / `applyResponse`) -/

/-- `context.pathMatch?.[index] || ""`: the capture at `index`, with a missing
array, out-of-range index, non-capturing group, or empty capture all
collapsing to `""`. -/
def captureAt (pm : Option (List (Option String))) (i : Nat) : String :=
  match pm with
  | none => ""
  | some arr => (arr.getD i none).getD ""

/-- One entry of the `action.query` loop of `applyRedirect` (lines 773–787):
a `fromPathGroup` projection is applied only when the capture is non-empty. -/
def applyQueryEntry (pm : Option (List (Option String)))
    (ps : List (String × String)) (kv : String × QueryValue) :
    List (String × String) :=
  match kv.2 with
  | .fromPathGroup n =>
    let segment := captureAt pm (n.getD 0)
    if segment = "" then ps else setParam ps kv.1 segment
  | .literal s => setParam ps kv.1 (s.getD "")
  | .str s => setParam ps kv.1 s
  | .num n => setParam ps kv.1 (toString n)
  | .bool b => setParam ps kv.1 (if b then "true" else "false")

/-- `applyRedirect(action, context, request, country, device)` (lines
751–798).  `parseUrl` models `new URL(action.target)`; `reqQuery` is the
incoming request's query-parameter list. -/
def applyRedirect (parseUrl : String → Url) (action : RedirectAction)
    (ctx : MatchContext) (reqQuery : List (String × String))
    (country : String) (device : Device) : HttpResponse :=
  let target := parseUrl action.target
  let params := target.params
  let params :=
    if action.preserveOriginalQuery = some true then
      reqQuery.foldl (fun acc kv => setParam acc kv.1 kv.2) params
    else params
  let params :=
    match action.extraQuery with
    | some eq => eq.foldl (fun acc kv => setParam acc kv.1 kv.2) params
    | none => params
  let params :=
    match action.query with
    | some q => q.foldl (applyQueryEntry ctx.pathMatch) params
    | none => params
  let params :=
    if action.appendCountry = some true then setParam params "country" country else params
  let params :=
    if action.appendDevice = some true then setParam params "device" (deviceStr device)
    else params
  responseRedirect (urlToString { target with params := params }) (action.status.getD 302)

/-- `applyResponse(action)` (lines 800–811). -/
def applyResponse (action : ResponseAction) : HttpResponse :=
  let headers := (action.headers.getD []).foldl (fun acc kv => headersSet acc kv.1 kv.2) []
  let headers :=
    if headersHas headers "Content-Type" then headers
    else
      headersSet headers "Content-Type"
        (if action.bodyHtml.isSome then "text/html; charset=utf-8"
         else "text/plain; charset=utf-8")
  { status := action.status.getD 200
    headers := headers
    body := action.bodyHtml.getD (action.bodyText.getD "") }

/-- `executeRoute(ctx, request, country, device)` (lines 813–830). -/
def executeRoute (parseUrl : String → Url) (ctx : MatchContext)
    (reqQuery : List (String × String)) (country : String) (device : Device) :
    HttpResponse :=
  match ctx.route.action with
  | none => { status := 204, headers := [] }
  | some (.redirect a) => applyRedirect parseUrl a ctx reqQuery country device
  | some (.response a) => applyResponse a

/-- The matching-and-dispatch loop of `handleRuntimeRequest` (lines
1281–1288): run `matchRoute` over the bundle's routes in array order, execute
the first match, and fall back to `fetch(request)` (origin pass-through). -/
def routeRequest (parseUrl : String → Url) (rx : RegexExec)
    (routes : List RouteRule) (pathname country : String) (device : Device)
    (isBot : Bool) (reqQuery : List (String × String)) : Outcome :=
  match routes.findSome? (fun rule => matchRoute rx rule pathname country device isBot) with
  | some ctx => .respond (executeRoute parseUrl ctx reqQuery country device)
  | none => .passthrough

/-- The country classification of `handleRuntimeRequest` (line 1277):
`((request as any).cf?.country || "").toUpperCase()`. -/
def requestCountry (cfCountry : Option String) : String :=
  strUpper (cfCountry.getD "")

/-- `detectDevice(uaRaw)` (lines 679–693). -/
def detectDevice (uaRaw : String) : Device :=
  let ua := strLower uaRaw
  if uaRaw = "" then .desktop
  else if strIncludes ua "ipad" || strIncludes ua "tablet" then .tablet
  else if wordBounded uaRaw "android" && strIncludes ua "mobile" then .mobile
  else if strIncludesCI uaRaw "iphone" || strIncludesCI uaRaw "ipod"
      || strIncludesCI uaRaw "windows phone" || strIncludesCI uaRaw "iemobile"
      || strIncludesCI uaRaw "blackberry" || strIncludesCI uaRaw "opera mini" then .mobile
  else .desktop

/-! ## JSON serialization (model of `JSON.stringify` on the config types)

Key order follows the declaration order of the TypeScript interfaces and
absent (`undefined`) optional fields are omitted, as `JSON.stringify` does. -/

/-- Escape a string for a JSON literal (model). -/
def jsonEscape (s : String) : String :=
  ⟨s.data.foldr
    (fun c acc =>
      if c = '"' then '\\' :: '"' :: acc
      else if c = '\\' then '\\' :: '\\' :: acc
      else c :: acc) []⟩

/-- A JSON string literal. -/
def serStr (s : String) : String := "\"" ++ jsonEscape s ++ "\""

/-- A JSON boolean. -/
def serBool (b : Bool) : String := if b then "true" else "false"

/-- A JSON array of strings. -/
def serStrList (l : List String) : String :=
  "[" ++ String.intercalate "," (l.map serStr) ++ "]"

/-- A JSON object from key/value pairs already rendered as JSON. -/
def serObj (fields : List String) : String :=
  "\x7b" ++ String.intercalate "," fields ++ "\x7d"

/-- Serialize one `RedirectAction.query` value. -/
def serQueryValue : QueryValue → String
  | .str s => serStr s
  | .num n => toString n
  | .bool b => serBool b
  | .fromPathGroup (some n) => serObj ["\"fromPathGroup\":" ++ toString n]
  | .fromPathGroup none => serObj []
  | .literal (some s) => serObj ["\"literal\":" ++ serStr s]
  | .literal none => serObj []

/-- Serialize a string-keyed record. -/
def serRecord (entries : List (String × String)) : String :=
  serObj (entries.map fun kv => serStr kv.1 ++ ":" ++ kv.2)

/-- Serialize a `MatchRule`. -/
def serMatchRule (m : MatchRule) : String :=
  serObj <| List.filterMap id
    [ m.path.map (fun p => "\"path\":" ++
        match p with
        | .str s => serStr s
        | .list l => serStrList l)
    , m.countries.map (fun l => "\"countries\":" ++ serStrList l)
    , m.devices.map (fun l => "\"devices\":" ++
        "[" ++ String.intercalate "," (l.map fun d => serStr (deviceStr d)) ++ "]")
    , m.bots.map (fun b => "\"bots\":" ++ serBool b) ]

/-- Serialize a `RouteAction`. -/
def serAction : RouteAction → String
  | .redirect a =>
    serObj <| List.filterMap id
      [ some ("\"type\":\"redirect\"")
      , some ("\"target\":" ++ serStr a.target)
      , a.status.map (fun s => "\"status\":" ++ toString s)
      , a.query.map (fun q =>
          "\"query\":" ++ serRecord (q.map fun kv => (kv.1, serQueryValue kv.2)))
      , a.preserveOriginalQuery.map (fun b => "\"preserveOriginalQuery\":" ++ serBool b)
      , a.extraQuery.map (fun eq =>
          "\"extraQuery\":" ++ serRecord (eq.map fun kv => (kv.1, serStr kv.2)))
      , a.appendCountry.map (fun b => "\"appendCountry\":" ++ serBool b)
      , a.appendDevice.map (fun b => "\"appendDevice\":" ++ serBool b) ]
  | .response a =>
    serObj <| List.filterMap id
      [ some ("\"type\":\"response\"")
      , a.status.map (fun s => "\"status\":" ++ toString s)
      , a.headers.map (fun hs =>
          "\"headers\":" ++ serRecord (hs.map fun kv => (kv.1, serStr kv.2)))
      , a.bodyHtml.map (fun s => "\"bodyHtml\":" ++ serStr s)
      , a.bodyText.map (fun s => "\"bodyText\":" ++ serStr s) ]

/-- Serialize a `RouteRule`. -/
def serRoute (r : RouteRule) : String :=
  serObj <| List.filterMap id
    [ some ("\"id\":" ++ serStr r.id)
    , r.enabled.map (fun b => "\"enabled\":" ++ serBool b)
    , some ("\"match\":" ++ serMatchRule r.rmatch)
    , r.action.map (fun a => "\"action\":" ++ serAction a) ]

/-- Serialize a route array (`JSON.stringify(routes)`). -/
def serRoutes (routes : List RouteRule) : String :=
  "[" ++ String.intercalate "," (routes.map serRoute) ++ "]"

/-- Serialize a `FlagsConfig`. -/
def serFlags (f : FlagsConfig) : String :=
  serObj <| List.filterMap id
    [ some ("\"cacheTtlMs\":" ++ toString f.cacheTtlMs)
    , some ("\"strictBots\":" ++ serBool f.strictBots)
    , some ("\"yandexBots\":" ++ serStrList f.yandexBots)
    , some ("\"googleBots\":" ++ serStrList f.googleBots)
    , some ("\"allowedAdminIps\":" ++ serStrList f.allowedAdminIps)
    , some ("\"uiTitle\":" ++ serStr f.uiTitle)
    , some ("\"uiReadonly\":" ++ serBool f.uiReadonly)
    , f.webhookUrl.map (fun s => "\"webhookUrl\":" ++ serStr s) ]

/-! ## Config store, etag and cache (main worker lifecycle) -/

/-- The three logical `CONFIG/*` records of the KV store. -/
structure ConfigStore where
  routes : Option (List RouteRule) := none
  flags : Option FlagsConfig := none
  metadata : Option MetadataRecord := none
deriving DecidableEq, Repr

/-- The routes/flags/metadata triple produced by `loadRawConfig`. -/
structure RawConfig where
  routes : List RouteRule
  flags : FlagsConfig
  metadata : MetadataRecord
deriving DecidableEq, Repr

/-- `env.CONFIG_VERSION || "1"`. -/
def envVersionOr1 (v : Option String) : String :=
  let s := v.getD ""
  if s = "" then "1" else s

/-- `loadRawConfig(env)` (lines 564–584): read the three records, defaulting
absent ones.  `iso` models `nowIso()` for the default metadata. -/
def loadRawConfig (envVersion : Option String) (iso : String) (s : ConfigStore) :
    RawConfig :=
  { routes := s.routes.getD []
    flags := s.flags.getD DEFAULT_FLAGS
    metadata := s.metadata.getD
      { version := envVersionOr1 envVersion, updatedAt := iso, updatedBy := "unknown" } }

/-- `computeEtag(bundle)` (lines 586–597): hash of
`JSON.stringify({routes, flags, version: metadata.version})`.  `h` models
`hashText` (SHA-256 hex with a `sha256:` prefix). -/
def computeEtag (h : String → String) (routes : List RouteRule)
    (flags : FlagsConfig) (metadata : MetadataRecord) : String :=
  h (serObj
    [ "\"routes\":" ++ serRoutes routes
    , "\"flags\":" ++ serFlags flags
    , "\"version\":" ++ serStr metadata.version ])

/-- `MIN_TTL`. -/
def MIN_TTL : Int := 5000

/-- Result of one `hydrateCache` call: the returned bundle, the new value of
the module-level `cachedConfig`, and the number of `loadRawConfig` store
loads performed (each loading the three records). -/
structure HydrateResult where
  bundle : ConfigBundle
  cache : Option ConfigBundle
  loads : Nat
deriving Repr

/-- `hydrateCache(env, forceReload)` (lines 599–615).  `t0` models the
`Date.now()` of the expiry check, `t1` the (collapsed) `Date.now()` calls
that stamp `loadedAt`/`expiresAt` after the load; `iso` models `nowIso()`
inside `loadRawConfig`. -/
def hydrateCache (h : String → String) (envVersion : Option String) (iso : String)
    (store : ConfigStore) (cache : Option ConfigBundle) (forceReload : Bool)
    (t0 t1 : Int) : HydrateResult :=
  match cache with
  | some b =>
    if !forceReload && b.expiresAt > t0 then ⟨b, some b, 0⟩
    else
      let raw := loadRawConfig envVersion iso store
      let etag := computeEtag h raw.routes raw.flags raw.metadata
      let ttl := max (if raw.flags.cacheTtlMs = 0 then 60000 else raw.flags.cacheTtlMs) MIN_TTL
      let nb : ConfigBundle :=
        { routes := raw.routes, flags := raw.flags, metadata := raw.metadata
          etag := etag, loadedAt := t1, expiresAt := t1 + ttl }
      ⟨nb, some nb, 1⟩
  | none =>
    let raw := loadRawConfig envVersion iso store
    let etag := computeEtag h raw.routes raw.flags raw.metadata
    let ttl := max (if raw.flags.cacheTtlMs = 0 then 60000 else raw.flags.cacheTtlMs) MIN_TTL
    let nb : ConfigBundle :=
      { routes := raw.routes, flags := raw.flags, metadata := raw.metadata
        etag := etag, loadedAt := t1, expiresAt := t1 + ttl }
    ⟨nb, some nb, 1⟩

/-- `invalidateCache()` (lines 617–619): drop the held bundle. -/
def invalidateCache (_cache : Option ConfigBundle) : Option ConfigBundle := none

/-! ## Admin mutation: `handleRoutesPut` (lines 1027–1065) -/

/-- Process-wide mutable state touched by the admin handlers. -/
structure AdminWorld where
  store : ConfigStore
  cache : Option ConfigBundle
  audit : List AuditEntry
deriving Repr

/-- `validateRoutesPayload` on one rule (lines 837–856): non-blank `id`,
`match` and `action` present, and a redirect action has a truthy target. -/
def validateRoute (r : RouteRule) : Bool :=
  strTrim r.id ≠ "" &&
    (match r.action with
     | some (.redirect a) => a.target ≠ ""
     | some (.response _) => true
     | none => false)

/-- `validateRoutesPayload(routes)` (lines 833–857). -/
def validateRoutes (routes : List RouteRule) : Bool :=
  routes.all validateRoute

/-- The observable classification of a `handleRoutesPut` response. -/
inductive PutOutcome where
  | invalid
  | conflict
  | ok (etag : String)
deriving DecidableEq, Repr

/-- `handleRoutesPut(request, env, actor)` (lines 1027–1065).  The JSON body
is modelled already parsed as `payload`; `ifMatch` is the `If-Match` header
(`none` = header absent, `some ""` = header present with an empty value);
the conflict test is the source's `if (ifMatch && ifMatch !== current.etag)`,
whose JS truthiness guard makes an empty string behave like an absent
header.  All `Date.now()` / `nowIso()` calls of the one invocation are
collapsed to `now` / `iso`.  `updateMetadata` (lines 1017–1025) is inlined
as in the source call sequence: write routes, write metadata, invalidate,
re-hydrate, append the audit entry. -/
def handleRoutesPut (h : String → String) (envVersion : Option String)
    (iso : String) (now : Int) (actor : String) (w : AdminWorld)
    (payload : List RouteRule) (ifMatch : Option String) :
    PutOutcome × AdminWorld :=
  if !validateRoutes payload then (.invalid, w)
  else
    let hr := hydrateCache h envVersion iso w.store w.cache true now now
    let current := hr.bundle
    let w1 : AdminWorld := ⟨w.store, hr.cache, w.audit⟩
    let conflict : Bool :=
      match ifMatch with
      | some m => (m != "") && (m != current.etag)
      | none => false
    if conflict then (.conflict, w1)
    else
      let store1 : ConfigStore := { w1.store with routes := some payload }
      let metadata : MetadataRecord :=
        { version := envVersionOr1 envVersion, updatedAt := iso, updatedBy := actor }
      let store2 : ConfigStore := { store1 with metadata := some metadata }
      let hr2 := hydrateCache h envVersion iso store2 (invalidateCache hr.cache) true now now
      let entry : AuditEntry :=
        { ts := metadata.updatedAt, actor := actor, action := "routes.update"
          prevHash := some current.etag, newHash := some hr2.bundle.etag
          diffBytes := some (((serRoutes payload).length : Int)
            - ((serRoutes current.routes).length : Int)) }
      (.ok hr2.bundle.etag, ⟨store2, hr2.cache, w1.audit ++ [entry]⟩)

/-! ## Legacy worker (the `matchPathSimple` / `__pathToParam` variant) -/

/-- `matchPathSimple(pattern, pathname)` (legacy worker lines 191–198):
trailing-`*` prefix glob, otherwise exact equality, empty pattern never
matches. -/
def matchPathSimple (pattern pathname : String) : Bool :=
  if pattern = "" then false
  else if strEndsWith pattern "*" then strStartsWith pathname (strDropLast pattern)
  else pathname = pattern

/-- `matchRegExpStrings(patterns, pathname)` (legacy worker lines 200–210):
vacuously true when absent/empty, otherwise some pattern's regex tests true
(`rxT` models `new RegExp(src).test`, invalid regex ⇒ `false`). -/
def matchRegExpStrings (rxT : RegexTest) (patterns : Option (List String))
    (pathname : String) : Bool :=
  match patterns with
  | none => true
  | some ps => if ps.length = 0 then true else ps.any fun src => rxT src pathname

/-- The legacy worker's `MatchRule` (field `bot`, plus a separate regex
`pattern` list). -/
structure LegacyMatchRule where
  path : Option (List String) := none
  pattern : Option (List String) := none
  countries : Option (List String) := none
  devices : Option (List Device) := none
  bot : Option Bool := none
deriving DecidableEq, Repr

/-- `matchRule(rule, pathname, country, device, isBot)` (legacy worker lines
212–236).  The countries/devices/bot checks are character-for-character the
same tests as the main worker's, so those failure tests are shared. -/
def legacyMatchRule (rxT : RegexTest) (rule : LegacyMatchRule)
    (pathname country : String) (device : Device) (isBot : Bool) : Bool :=
  (match rule.path with
   | some ps => if ps.length > 0 then ps.any (fun p => matchPathSimple p pathname) else true
   | none => true)
  && matchRegExpStrings rxT rule.pattern pathname
  && !countriesFail rule.countries country
  && !devicesFail rule.devices device
  && !botsFail rule.bot isBot

/-- `(rule.extraParams?.[k] ?? "") as string`. -/
def lookupStr (ps : List (String × String)) (k : String) : String :=
  ((ps.find? fun p => p.1 = k).map Prod.snd).getD ""

/-- The segment computation of the legacy worker's slug guard (fetch lines
339–344): optionally strip the configured prefix, then take the first
non-empty `/`-separated segment. -/
def legacySegOf (extraParams : List (String × String)) (pathname : String) :
    Option String :=
  let sp := lookupStr extraParams "__stripPrefix"
  let path :=
    if sp ≠ "" && strStartsWith pathname sp then strDropN pathname sp.data.length
    else pathname
  ((strSplitSlash path).filter fun s => s ≠ "").head?

/-- The legacy worker's slug guard (fetch lines 336–348): `true` exactly when
step 4 returns `fetch(request)` (origin pass-through) instead of
redirecting — a `__pathToParam` is required but no segment was produced. -/
def legacySlugGuardPass (extraParams : List (String × String)) (pathname : String) :
    Bool :=
  let needParam := lookupStr extraParams "__pathToParam"
  if needParam ≠ "" then (legacySegOf extraParams pathname).isNone else false

/-! ## Variant worker (the `classifyDevice` / `matchesCountry` variant) -/

/-- The variant worker's binary device classification. -/
inductive MD where
  | mobile
  | desktop
deriving DecidableEq, Repr

/-- `/(iPad|Tablet|X11|Macintosh(?!.*iPhone))/i`: the `Macintosh` branch
matches when some occurrence of `macintosh` has no later `iphone`. -/
def macNotIphone (ua : String) : Bool :=
  let h := (strLower ua).data
  let mac := "macintosh".data
  let iph := "iphone".data
  (List.range (h.length + 1)).any fun i =>
    occursAt h mac i
      && !((List.range (h.length + 1)).any fun j =>
            decide (j ≥ i + mac.length) && occursAt h iph j)

/-- The tablet/desktop negative-signal regex of `classifyDevice` (variant
worker line 182). -/
def negativeSignalTest (ua : String) : Bool :=
  strIncludesCI ua "ipad" || strIncludesCI ua "tablet" || strIncludesCI ua "x11"
    || macNotIphone ua

/-- The user-agent fallback of `classifyDevice` (variant worker lines
175–192), reached when no unambiguous client hint is present.
`mobileRegexTest` models the configured/default mobile-UA regex. -/
def classifyByUa (uaHeader : Option String) (mobileRegexTest : String → Bool) : MD :=
  let userAgent := uaHeader.getD ""
  if userAgent = "" then .desktop
  else if negativeSignalTest userAgent then .desktop
  else if wordBounded userAgent "mobile" then .mobile
  else if mobileRegexTest userAgent then .mobile
  else .desktop

/-- `classifyDevice(request, config)` (variant worker lines 165–193):
a `Sec-CH-UA-Mobile` client hint of `?1`/`1` (after trim) is authoritative
for mobile, `?0`/`0` for desktop; anything else falls through to the
user-agent heuristics. -/
def classifyDevice (chMobile uaHeader : Option String)
    (mobileRegexTest : String → Bool) : MD :=
  let ch := chMobile.getD ""
  if ch ≠ "" then
    let normalized := strTrim ch
    if normalized = "?1" || normalized = "1" then .mobile
    else if normalized = "?0" || normalized = "0" then .desktop
    else classifyByUa uaHeader mobileRegexTest
  else classifyByUa uaHeader mobileRegexTest

/-- `matchesCountry(match, country)` (variant worker lines 220–229):
vacuous without a countries criterion, false without a country, otherwise a
case-insensitive membership test. -/
def matchesCountry (countries : Option (List String)) (country : Option String) :
    Bool :=
  match countries with
  | none => true
  | some cs =>
    if cs.length = 0 then true
    else
      let c := country.getD ""
      if c = "" then false
      else cs.any fun v => strUpper v = strUpper c

/-- The variant worker's redirect construction tail (fetch lines 406–409):
`Response.redirect(url, status)` then `headers.set("Cache-Control",
"no-store")`. -/
def variantRedirectResponse (redirectUrl : String) (status : Nat) : HttpResponse :=
  let r := responseRedirect redirectUrl status
  { r with headers := headersSet r.headers "Cache-Control" "no-store" }

/-! ## Specification-side predicates (phrasing the spec's criteria) -/

/-- The spec's "present path criterion is satisfied": some configured pattern
matches the path (vacuously true when absent or empty). -/
abbrev pathCriterionSat (rx : RegexExec) (m : MatchRule) (pathname : String) : Prop :=
  match ensureArray m.path with
  | none => True
  | some ps => ps = [] ∨ ∃ p ∈ ps, (rx p pathname).isSome = true

/-- The spec's "present countries criterion is satisfied". -/
abbrev countriesCriterionSat (m : MatchRule) (country : String) : Prop :=
  match m.countries with
  | none => True
  | some cs => cs = [] ∨ country ∈ cs

/-- The spec's "present devices criterion is satisfied". -/
abbrev devicesCriterionSat (m : MatchRule) (device : Device) : Prop :=
  match m.devices with
  | none => True
  | some ds => ds = [] ∨ Device.any ∈ ds ∨ device ∈ ds

/-- The spec's "present bots criterion is satisfied". -/
abbrev botsCriterionSat (m : MatchRule) (isBot : Bool) : Prop :=
  match m.bots with
  | none => True
  | some b => isBot = b

/-- The spec's "rule is enabled and every present criterion is satisfied". -/
abbrev ruleQualifies (rx : RegexExec) (r : RouteRule) (pathname country : String)
    (device : Device) (isBot : Bool) : Prop :=
  r.enabled ≠ some false
    ∧ pathCriterionSat rx r.rmatch pathname
    ∧ countriesCriterionSat r.rmatch country
    ∧ devicesCriterionSat r.rmatch device
    ∧ botsCriterionSat r.rmatch isBot

/-! ## Helper lemmas -/

theorem contains_eq_true_iff_mem {α : Type} [DecidableEq α] (l : List α) (a : α) :
    l.contains a = true ↔ a ∈ l :=
  List.elem_iff

theorem findSome_eq_none_iff {α β : Type} (f : α → Option β) (l : List α) :
    l.findSome? f = none ↔ ∀ x ∈ l, f x = none := by
  induction l with
  | nil => simp [List.findSome?]
  | cons b bs ih =>
    simp only [List.findSome?]
    cases hfb : f b with
    | some w => simp [hfb]
    | none => simp [hfb, ih]

theorem findSome_eq_some_iff {α β : Type} (f : α → Option β) (l : List α) (v : β) :
    l.findSome? f = some v ↔
      ∃ l1 a l2, l = l1 ++ a :: l2 ∧ f a = some v ∧ ∀ x ∈ l1, f x = none := by
  induction l with
  | nil =>
    simp only [List.findSome?]
    constructor
    · intro h; cases h
    · rintro ⟨l1, a, l2, hdec, -, -⟩
      exact absurd hdec.symm (List.append_ne_nil_of_right_ne_nil l1 (by simp))
  | cons b bs ih =>
    simp only [List.findSome?]
    cases hfb : f b with
    | some w =>
      constructor
      · intro h
        exact ⟨[], b, bs, rfl, hfb.trans h, by simp⟩
      · rintro ⟨l1, a, l2, hdec, hfa, hnone⟩
        cases l1 with
        | nil =>
          simp only [List.nil_append, List.cons.injEq] at hdec
          rw [hdec.1, hfa] at hfb
          exact hfb.symm
        | cons c l1' =>
          simp only [List.cons_append, List.cons.injEq] at hdec
          have hc : f c = none := hnone c (by simp)
          rw [hdec.1, hc] at hfb
          cases hfb
    | none =>
      rw [ih]
      constructor
      · rintro ⟨l1, a, l2, hdec, hfa, hnone⟩
        refine ⟨b :: l1, a, l2, by rw [hdec]; rfl, hfa, ?_⟩
        intro x hx
        rcases List.mem_cons.mp hx with rfl | hx
        · exact hfb
        · exact hnone x hx
      · rintro ⟨l1, a, l2, hdec, hfa, hnone⟩
        cases l1 with
        | nil =>
          simp only [List.nil_append, List.cons.injEq] at hdec
          rw [hdec.1, hfa] at hfb
          cases hfb
        | cons c l1' =>
          simp only [List.cons_append, List.cons.injEq] at hdec
          exact ⟨l1', a, l2, hdec.2, hfa, fun x hx => hnone x (by simp [hx])⟩

theorem isPrefixOf_iff_append (l1 : List Char) : ∀ l2 : List Char,
    l1.isPrefixOf l2 = true ↔ ∃ t, l2 = l1 ++ t := by
  induction l1 with
  | nil => intro l2; simp [List.isPrefixOf]
  | cons a as ih =>
    intro l2
    cases l2 with
    | nil => simp [List.isPrefixOf]
    | cons b bs =>
      simp only [List.isPrefixOf, Bool.and_eq_true, beq_iff_eq, ih, List.cons_append,
        List.cons.injEq]
      constructor
      · rintro ⟨rfl, t, rfl⟩; exact ⟨t, rfl, rfl⟩
      · rintro ⟨t, rfl, rfl⟩; exact ⟨rfl, t, rfl⟩

theorem strStartsWith_iff (s pfx : String) :
    strStartsWith s pfx = true ↔ ∃ t : String, s = pfx ++ t := by
  unfold strStartsWith
  rw [isPrefixOf_iff_append]
  constructor
  · rintro ⟨t, ht⟩
    exact ⟨⟨t⟩, String.ext (by rw [String.data_append]; exact ht)⟩
  · rintro ⟨t, rfl⟩
    exact ⟨t.data, String.data_append pfx t⟩

theorem pathCheck_isSome_iff (rx : RegexExec) (m : MatchRule) (pathname : String) :
    (pathCheck rx (ensureArray m.path) pathname).isSome = true ↔
      pathCriterionSat rx m pathname := by
  unfold pathCriterionSat
  cases hp : ensureArray m.path with
  | none => simp [pathCheck]
  | some ps =>
    cases ps with
    | nil => simp [pathCheck]
    | cons q qs =>
      simp only [pathCheck, List.length_cons]
      rw [if_pos (Nat.succ_pos _)]
      cases hfs : (q :: qs).findSome? (fun p => rx p pathname) with
      | some arr =>
        simp only [Option.isSome_some, true_iff]
        rcases (findSome_eq_some_iff _ _ _).mp hfs with ⟨l1, a, l2, hdec, hfa, -⟩
        refine Or.inr ⟨a, ?_, by simp [hfa]⟩
        rw [hdec]
        exact List.mem_append_right _ (List.mem_cons_self a l2)
      | none =>
        simp only [Option.isSome_none, Bool.false_eq_true, false_iff]
        rw [findSome_eq_none_iff] at hfs
        rintro (h | ⟨p, hp', hsome⟩)
        · cases h
        · rw [hfs p hp'] at hsome; cases hsome

theorem countriesFail_eq_false_iff (m : MatchRule) (c : String) :
    countriesFail m.countries c = false ↔ countriesCriterionSat m c := by
  unfold countriesCriterionSat
  cases hc : m.countries with
  | none => simp [countriesFail]
  | some l =>
    cases l with
    | nil => simp [countriesFail]
    | cons x xs =>
      simp only [countriesFail, List.length_cons]
      rw [show (decide (xs.length + 1 > 0)) = true from by simp]
      simp only [Bool.true_and, Bool.not_eq_false', contains_eq_true_iff_mem]
      simp

theorem devicesFail_eq_false_iff (m : MatchRule) (d : Device) :
    devicesFail m.devices d = false ↔ devicesCriterionSat m d := by
  unfold devicesCriterionSat
  cases hc : m.devices with
  | none => simp [devicesFail]
  | some l =>
    cases l with
    | nil => simp [devicesFail]
    | cons x xs =>
      simp only [devicesFail, List.length_cons]
      rw [show (decide (xs.length + 1 > 0)) = true from by simp]
      simp only [Bool.true_and, Bool.and_eq_false_iff, Bool.not_eq_false',
        contains_eq_true_iff_mem]
      simp [or_assoc]

theorem botsFail_eq_false_iff (m : MatchRule) (b : Bool) :
    botsFail m.bots b = false ↔ botsCriterionSat m b := by
  unfold botsCriterionSat
  cases m.bots with
  | none => simp [botsFail]
  | some v => cases v <;> cases b <;> simp [botsFail]

theorem matchRoute_isSome_iff (rx : RegexExec) (r : RouteRule)
    (pathname country : String) (device : Device) (isBot : Bool) :
    (matchRoute rx r pathname country device isBot).isSome = true ↔
      ruleQualifies rx r pathname country device isBot := by
  unfold matchRoute ruleQualifies
  by_cases he : r.enabled = some false
  · simp [he]
  · simp only [he, if_false, ne_eq, not_false_eq_true, true_and]
    cases hpc : pathCheck rx (ensureArray r.rmatch.path) pathname with
    | none =>
      have hps := pathCheck_isSome_iff rx r.rmatch pathname
      rw [hpc] at hps
      simp only [Option.isSome_none, Bool.false_eq_true, false_iff] at hps ⊢
      intro hcon
      exact hps hcon.1
    | some pm =>
      have hps := pathCheck_isSome_iff rx r.rmatch pathname
      rw [hpc] at hps
      simp only [Option.isSome_some, true_iff] at hps
      by_cases hcf : countriesFail r.rmatch.countries country = true
      · simp only [hcf, if_true, Option.isSome_none, Bool.false_eq_true, false_iff]
        intro hcon
        have := (countriesFail_eq_false_iff r.rmatch country).mpr hcon.2.1
        rw [hcf] at this; cases this
      · rw [Bool.not_eq_true] at hcf
        by_cases hdf : devicesFail r.rmatch.devices device = true
        · simp only [hcf, hdf, Bool.false_eq_true, if_false, if_true, Option.isSome_none,
            false_iff]
          intro hcon
          have := (devicesFail_eq_false_iff r.rmatch device).mpr hcon.2.2.1
          rw [hdf] at this; cases this
        · rw [Bool.not_eq_true] at hdf
          by_cases hbf : botsFail r.rmatch.bots isBot = true
          · simp only [hcf, hdf, hbf, Bool.false_eq_true, if_false, if_true,
              Option.isSome_none, false_iff]
            intro hcon
            have := (botsFail_eq_false_iff r.rmatch isBot).mpr hcon.2.2.2
            rw [hbf] at this; cases this
          · rw [Bool.not_eq_true] at hbf
            simp only [hcf, hdf, hbf, Bool.false_eq_true, if_false, Option.isSome_some,
              true_iff]
            exact ⟨hps, (countriesFail_eq_false_iff r.rmatch country).mp hcf,
              (devicesFail_eq_false_iff r.rmatch device).mp hdf,
              (botsFail_eq_false_iff r.rmatch isBot).mp hbf⟩

theorem matchRoute_route_eq (rx : RegexExec) (r : RouteRule)
    (pathname country : String) (device : Device) (isBot : Bool)
    (ctx : MatchContext)
    (h : matchRoute rx r pathname country device isBot = some ctx) :
    ctx.route = r := by
  unfold matchRoute at h
  by_cases he : r.enabled = some false
  · simp [he] at h
  · simp only [he, if_false] at h
    cases hpc : pathCheck rx (ensureArray r.rmatch.path) pathname with
    | none => rw [hpc] at h; cases h
    | some pm =>
      rw [hpc] at h
      by_cases hcf : countriesFail r.rmatch.countries country = true
      · simp [hcf] at h
      · rw [Bool.not_eq_true] at hcf
        by_cases hdf : devicesFail r.rmatch.devices device = true
        · simp [hcf, hdf] at h
        · rw [Bool.not_eq_true] at hdf
          by_cases hbf : botsFail r.rmatch.bots isBot = true
          · simp [hcf, hdf, hbf] at h
          · rw [Bool.not_eq_true] at hbf
            simp only [hcf, hdf, hbf, Bool.false_eq_true, if_false] at h
            cases h
            rfl

/-! ## Concrete fixtures used by witnesses and counterexamples -/

/-- A URL-parse oracle mapping every target string to a query-free URL. -/
def puId : String → Url := fun s => ⟨s, []⟩

/-- A regex oracle under which no pattern matches. -/
def rxNone : RegexExec := fun _ _ => none

/-- A disabled rule. -/
def ruleSkip : RouteRule := { id := "disabled", enabled := some false }

/-- An enabled country-only rule. -/
def ruleHit : RouteRule := { id := "hit", rmatch := { countries := some ["RU"] } }

/-! ## Claim theorems -/

/-- C1: for every rule list and classified request, the matcher returns the
first rule in array order that is enabled and whose every present criterion
(path, countries, devices, bots) is satisfied — rules before it all fail to
qualify, so later rules are never reached — and if no rule qualifies the
request is passed through to the origin. -/
theorem c1_matcher_first_match (parseUrl : String → Url) (rx : RegexExec)
    (rules : List RouteRule) (r : RouteRule) (pathname country : String)
    (device : Device) (isBot : Bool) (reqQuery : List (String × String)) :
    ((matchRoute rx r pathname country device isBot).isSome = true
        ↔ ruleQualifies rx r pathname country device isBot)
    ∧ (∀ ctx,
        rules.findSome? (fun rl => matchRoute rx rl pathname country device isBot)
            = some ctx →
          (∃ l1 l2, rules = l1 ++ ctx.route :: l2
            ∧ ruleQualifies rx ctx.route pathname country device isBot
            ∧ ∀ r' ∈ l1, ¬ ruleQualifies rx r' pathname country device isBot)
          ∧ routeRequest parseUrl rx rules pathname country device isBot reqQuery
              = .respond (executeRoute parseUrl ctx reqQuery country device))
    ∧ (routeRequest parseUrl rx rules pathname country device isBot reqQuery
          = .passthrough
        ↔ ∀ r' ∈ rules, ¬ ruleQualifies rx r' pathname country device isBot) := by
  refine ⟨matchRoute_isSome_iff rx r pathname country device isBot, ?_, ?_⟩
  · intro ctx hctx
    constructor
    · rcases (findSome_eq_some_iff _ _ _).mp hctx with ⟨l1, a, l2, hdec, hfa, hnone⟩
      have hroute : ctx.route = a :=
        matchRoute_route_eq rx a pathname country device isBot ctx hfa
      refine ⟨l1, l2, by rw [hdec, hroute], ?_, ?_⟩
      · rw [hroute]
        exact (matchRoute_isSome_iff rx a pathname country device isBot).mp
          (by rw [hfa]; rfl)
      · intro r' hr' hq
        have := (matchRoute_isSome_iff rx r' pathname country device isBot).mpr hq
        rw [hnone r' hr'] at this
        cases this
    · unfold routeRequest
      rw [hctx]
  · unfold routeRequest
    cases hfs : rules.findSome? (fun rl => matchRoute rx rl pathname country device isBot)
      with
    | some ctx =>
      simp only [reduceCtorEq, false_iff, not_forall]
      rcases (findSome_eq_some_iff _ _ _).mp hfs with ⟨l1, a, l2, hdec, hfa, -⟩
      refine ⟨a, ?_, ?_⟩
      · rw [hdec]; exact List.mem_append_right _ (List.mem_cons_self a l2)
      · simp only [not_not]
        exact (matchRoute_isSome_iff rx a pathname country device isBot).mp
          (by rw [hfa]; rfl)
    | none =>
      simp only [true_iff]
      rw [findSome_eq_none_iff] at hfs
      intro r' hr' hq
      have := (matchRoute_isSome_iff rx r' pathname country device isBot).mpr hq
      rw [hfs r' hr'] at this
      cases this

/-- C1 witness: a concrete qualifying rule recognised through the theorem, and
a concrete all-failing rule list passed through to the origin. -/
theorem c1_matcher_first_match_witness :
    ruleQualifies rxNone ruleHit "/" "RU" .mobile false
    ∧ routeRequest puId rxNone [ruleSkip] "/" "RU" .mobile false [] = .passthrough := by
  constructor
  · exact (c1_matcher_first_match puId rxNone [] ruleHit "/" "RU" .mobile false []).1.mp
      (by decide)
  · refine (c1_matcher_first_match puId rxNone [ruleSkip] ruleSkip "/" "RU" .mobile false
      []).2.2.mpr ?_
    intro r' hr' hq
    have hiff := (c1_matcher_first_match puId rxNone [] r' "/" "RU" .mobile false []).1
    have hr : r' = ruleSkip := by simpa using hr'
    subst hr
    have := hiff.mpr hq
    rw [show matchRoute rxNone ruleSkip "/" "RU" .mobile false = none from by decide]
      at this
    cases this

/-- C10: a devices list containing `"any"` never rejects — for every
classified device the device check passes, and `matchRoute` behaves exactly
as if the rule had no devices criterion at all. -/
theorem c10_devices_any_wildcard (rx : RegexExec) (rule : RouteRule)
    (ds : List Device) (pathname country : String) (device : Device) (isBot : Bool)
    (hds : rule.rmatch.devices = some ds) (hany : Device.any ∈ ds) :
    (∀ d' : Device, devicesFail (some ds) d' = false)
    ∧ matchRoute rx rule pathname country device isBot
        = (matchRoute rx { rule with rmatch := { rule.rmatch with devices := none } }
            pathname country device isBot).map fun ctx => ⟨rule, ctx.pathMatch⟩ := by
  have hcontains : ds.contains Device.any = true :=
    (contains_eq_true_iff_mem ds Device.any).mpr hany
  have hfail : ∀ d' : Device, devicesFail (some ds) d' = false := by
    intro d'
    simp only [devicesFail]
    rw [hcontains]
    simp
  refine ⟨hfail, ?_⟩
  unfold matchRoute
  by_cases he : rule.enabled = some false
  · simp [he]
  · simp only [he, if_false]
    cases hpc : pathCheck rx (ensureArray rule.rmatch.path) pathname with
    | none => simp
    | some pm =>
      simp only [Option.map_some]
      by_cases hcf : countriesFail rule.rmatch.countries country = true
      · simp [hcf]
      · rw [Bool.not_eq_true] at hcf
        simp only [hcf, Bool.false_eq_true, if_false]
        rw [hds, hfail device]
        simp only [devicesFail, Bool.false_eq_true, if_false]
        by_cases hbf : botsFail rule.rmatch.bots isBot = true
        · simp [hbf]
        · rw [Bool.not_eq_true] at hbf
          simp [hbf]

/-- C10 witness: a concrete rule listing `["any"]` matched at every device
through the theorem. -/
theorem c10_devices_any_wildcard_witness :
    devicesFail (some [Device.any]) Device.desktop = false
    ∧ matchRoute rxNone
        { id := "w", rmatch := { devices := some [Device.any] } } "/" "" .tablet false
      = (matchRoute rxNone { id := "w", rmatch := {} } "/" "" .tablet false).map
          fun ctx => ⟨{ id := "w", rmatch := { devices := some [Device.any] } },
            ctx.pathMatch⟩ := by
  have h := c10_devices_any_wildcard rxNone
    { id := "w", rmatch := { devices := some [Device.any] } } [Device.any] "/" ""
    .tablet false rfl (by decide)
  exact ⟨h.1 Device.desktop, h.2⟩

/-- The rule of the C9 counterexample: countries criterion `["ru"]`. -/
def rule9 : RouteRule := { id := "r", rmatch := { countries := some ["ru"] } }

/-- C9 counterexample: the claim predicts that a rule listing `"ru"` matches a
request classified as country `"RU"` (case-insensitive countries), but the
main worker's `matchRoute` rejects it — membership is case-sensitive — while
the identical rule listing `"RU"` matches. -/
theorem c9_country_case_counterexample :
    strUpper "ru" = "RU"
    ∧ matchRoute rxNone rule9 "/" "RU" .mobile false = none
    ∧ (matchRoute rxNone ruleHit "/" "RU" .mobile false).isSome = true := by
  refine ⟨by decide, by decide, by decide⟩

/-- C9 amended: `handleRuntimeRequest` uppercases the request country and
`matchRoute` then tests literal (case-sensitive) membership in the rule's
countries list, so only uppercase rule entries can match; the variant
worker's `matchesCountry` is the one that compares case-insensitively
(uppercasing both sides), where `"ru"` does match `"RU"`. -/
theorem c9_country_matching_amended (cs : List String) (c cf v : String)
    (hv : v ∈ cs) (hvc : strUpper v = strUpper c) (hc : c ≠ "") :
    (countriesFail (some cs) c = false ↔ cs = [] ∨ c ∈ cs)
    ∧ requestCountry (some cf) = strUpper cf
    ∧ matchesCountry (some cs) (some c) = true := by
  refine ⟨?_, rfl, ?_⟩
  · cases cs with
    | nil => simp [countriesFail]
    | cons x xs =>
      simp only [countriesFail, List.length_cons]
      rw [show (decide (xs.length + 1 > 0)) = true from by simp]
      simp only [Bool.true_and, Bool.not_eq_false', contains_eq_true_iff_mem]
      simp
  · cases cs with
    | nil => cases hv
    | cons x xs =>
      simp only [matchesCountry, Option.getD_some]
      rw [if_neg (by simp), if_neg hc, List.any_eq_true]
      exact ⟨v, hv, decide_eq_true hvc⟩

/-- C9 amended witness: `"ru"` vs `"RU"` through `matchesCountry`. -/
theorem c9_country_matching_amended_witness :
    ("ru" ∈ ["ru"] ∧ strUpper "ru" = strUpper "RU" ∧ "RU" ≠ "")
    ∧ matchesCountry (some ["ru"]) (some "RU") = true := by
  exact ⟨⟨by decide, by decide, by decide⟩,
    (c9_country_matching_amended ["ru"] "RU" "kz" "ru" (by decide) (by decide)
      (by decide)).2.2⟩

/-- C7: path-pattern semantics — a trailing-`*` pattern matches exactly the
paths extending the pattern minus the `*`; a wildcard-free pattern matches
only the exactly equal path (`"/casino"` matches neither `"/casino/x"` nor
`"/a/casino"`); and patterns of the regex kind are compiled and tested
against the path (`matchRegExpStrings`, and the path criterion of
`matchRoute`). -/
theorem c7_path_pattern_semantics :
    (∀ pat path, strEndsWith pat "*" = true →
      (matchPathSimple pat path = true ↔ ∃ t : String, path = strDropLast pat ++ t))
    ∧ (∀ pat path, pat.data.contains '*' = false →
      (matchPathSimple pat path = true ↔ (pat ≠ "" ∧ path = pat)))
    ∧ matchPathSimple "/casino" "/casino/x" = false
    ∧ matchPathSimple "/casino" "/a/casino" = false
    ∧ (∀ (rxT : RegexTest) (ps : List String) (path : String),
      matchRegExpStrings rxT (some ps) path = true ↔
        (ps = [] ∨ ∃ p ∈ ps, rxT p path = true))
    ∧ (∀ (rx : RegexExec) (m : MatchRule) (path : String),
      (pathCheck rx (ensureArray m.path) path).isSome = true
        ↔ pathCriterionSat rx m path) := by
  refine ⟨?_, ?_, by decide, by decide, ?_, pathCheck_isSome_iff⟩
  · intro pat path hend
    have hne : pat ≠ "" := by
      intro h
      rw [h] at hend
      exact absurd hend (by decide)
    unfold matchPathSimple
    rw [if_neg hne, if_pos hend]
    exact strStartsWith_iff path (strDropLast pat)
  · intro pat path hstar
    by_cases hne : pat = ""
    · subst hne
      simp [matchPathSimple]
    · have hnend : ¬ strEndsWith pat "*" = true := by
        intro hend
        unfold strEndsWith at hend
        unfold List.isSuffixOf at hend
        rw [isPrefixOf_iff_append] at hend
        rcases hend with ⟨t, ht⟩
        have hmem : '*' ∈ pat.data.reverse := by
          rw [ht]
          exact List.mem_append_left _ (by decide)
        rw [List.mem_reverse] at hmem
        rw [(contains_eq_true_iff_mem pat.data '*').mpr hmem] at hstar
        cases hstar
      unfold matchPathSimple
      rw [if_neg hne, if_neg hnend]
      simp [hne, eq_comm]
  · intro rxT ps path
    cases ps with
    | nil => simp [matchRegExpStrings]
    | cons q qs =>
      simp only [matchRegExpStrings]
      rw [if_neg (by simp)]
      simp [List.any_eq_true]

/-- C7 witness: prefix-glob and exact-equality matches produced through the
theorem at concrete patterns. -/
theorem c7_path_pattern_semantics_witness :
    matchPathSimple "/casino/*" "/casino/spins" = true
    ∧ matchPathSimple "/casino" "/casino" = true := by
  constructor
  · exact (c7_path_pattern_semantics.1 "/casino/*" "/casino/spins" (by decide)).mpr
      ⟨"spins", by decide⟩
  · exact (c7_path_pattern_semantics.2.1 "/casino" "/casino" (by decide)).mpr
      ⟨by decide, rfl⟩

/-- C5: the etag is a deterministic function of (routes, flags,
metadata.version) only — two bundles equal on those produce equal etags
whatever their load times, `loadedAt`/`expiresAt`, or
`metadata.updatedAt`/`updatedBy`, for any hash function. -/
theorem c5_etag_deterministic (h : String → String) (b1 b2 : ConfigBundle)
    (hr : b1.routes = b2.routes) (hf : b1.flags = b2.flags)
    (hv : b1.metadata.version = b2.metadata.version) :
    computeEtag h b1.routes b1.flags b1.metadata
      = computeEtag h b2.routes b2.flags b2.metadata := by
  unfold computeEtag
  rw [hr, hf, hv]

/-- A bundle loaded at time 0 by one actor. -/
def bundleW1 : ConfigBundle :=
  { routes := [ruleHit], flags := DEFAULT_FLAGS
    metadata := ⟨"1", "2025-01-01T00:00:00Z", "alice"⟩
    etag := "", loadedAt := 0, expiresAt := 1 }

/-- The same routes/flags/version loaded much later by another actor. -/
def bundleW2 : ConfigBundle :=
  { routes := [ruleHit], flags := DEFAULT_FLAGS
    metadata := ⟨"1", "2026-02-02T00:00:00Z", "bob"⟩
    etag := "x", loadedAt := 999, expiresAt := 123456 }

/-- C5 witness: two concrete bundles differing in load time, `updatedAt` and
`updatedBy` get the same etag through the theorem. -/
theorem c5_etag_deterministic_witness :
    (bundleW1.routes = bundleW2.routes ∧ bundleW1.flags = bundleW2.flags
      ∧ bundleW1.metadata.version = bundleW2.metadata.version
      ∧ bundleW1.loadedAt ≠ bundleW2.loadedAt
      ∧ bundleW1.metadata.updatedAt ≠ bundleW2.metadata.updatedAt)
    ∧ computeEtag id bundleW1.routes bundleW1.flags bundleW1.metadata
        = computeEtag id bundleW2.routes bundleW2.flags bundleW2.metadata := by
  exact ⟨⟨rfl, rfl, rfl, by decide, by decide⟩,
    c5_etag_deterministic id bundleW1 bundleW2 rfl rfl rfl⟩

theorem hydrate_force_cache_isSome (h : String → String) (envVersion : Option String)
    (iso : String) (store : ConfigStore) (cache : Option ConfigBundle) (t0 t1 : Int) :
    (hydrateCache h envVersion iso store cache true t0 t1).cache
      = some (hydrateCache h envVersion iso store cache true t0 t1).bundle := by
  cases cache <;> simp [hydrateCache]

/-- C2 (amended): a routes-replace whose **non-empty** `If-Match` value
differs from the current bundle's etag is rejected as a conflict and leaves
the stored routes, flags, metadata and the audit log exactly as they were;
the cache holds the freshly re-read (unchanged) bundle rather than being
invalidated.  (An empty `If-Match` value is falsy in JS and is treated like
an absent header — see the counterexample.) -/
theorem c2_stale_ifmatch_conflict (h : String → String) (envVersion : Option String)
    (iso : String) (now : Int) (actor : String) (w : AdminWorld)
    (payload : List RouteRule) (m : String)
    (hval : validateRoutes payload = true)
    (hne : m ≠ "")
    (hm : m ≠ (hydrateCache h envVersion iso w.store w.cache true now now).bundle.etag) :
    handleRoutesPut h envVersion iso now actor w payload (some m)
      = (.conflict,
          ⟨w.store, (hydrateCache h envVersion iso w.store w.cache true now now).cache,
            w.audit⟩)
    ∧ (hydrateCache h envVersion iso w.store w.cache true now now).cache
        = some (hydrateCache h envVersion iso w.store w.cache true now now).bundle := by
  refine ⟨?_, hydrate_force_cache_isSome h envVersion iso w.store w.cache now now⟩
  have hb1 : (m != "") = true := bne_iff_ne.mpr hne
  have hb2 : (m != (hydrateCache h envVersion iso w.store w.cache true now now).bundle.etag)
      = true := bne_iff_ne.mpr hm
  unfold handleRoutesPut
  simp [hval, hb1, hb2]

/-- Fixture store used by the C2 and C4 witnesses. -/
def storeW : ConfigStore := ⟨some [], some DEFAULT_FLAGS, some ⟨"1", "t0", "init"⟩⟩

/-- Fixture admin world before the stale PUT. -/
def worldW : AdminWorld := ⟨storeW, none, []⟩

/-- C2 witness: a concrete non-empty stale `If-Match` on a concrete store is
rejected with the state preserved, through the theorem. -/
theorem c2_stale_ifmatch_conflict_witness :
    (validateRoutes [] = true ∧ "stale" ≠ ""
      ∧ "stale" ≠ (hydrateCache id none "t1" storeW none true 0 0).bundle.etag)
    ∧ handleRoutesPut id none "t1" 0 "alice" worldW [] (some "stale")
        = (.conflict,
            ⟨storeW, (hydrateCache id none "t1" storeW none true 0 0).cache, []⟩) := by
  refine ⟨⟨by decide, by decide, by decide⟩, ?_⟩
  exact (c2_stale_ifmatch_conflict id none "t1" 0 "alice" worldW [] "stale"
    (by decide) (by decide) (by decide)).1

/-- A minimal payload rule accepted by `validateRoutesPayload`. -/
def ruleP : RouteRule :=
  { id := "p", action := some (.redirect { target := "https://x.example/" }) }

/-- C2 counterexample: an `If-Match` header supplied with the empty value
`""` differs from the current bundle's etag (etags are never empty), yet the
replace is **not** rejected — the JS truthiness guard
`if (ifMatch && ifMatch !== current.etag)` skips the conflict check, the new
routes are written over the old ones and an audit entry is appended. -/
theorem c2_empty_ifmatch_counterexample :
    "" ≠ (hydrateCache id none "t1" storeW none true 0 0).bundle.etag
    ∧ (handleRoutesPut id none "t1" 0 "alice" worldW [ruleP] (some "")).1 ≠ .conflict
    ∧ (handleRoutesPut id none "t1" 0 "alice" worldW [ruleP] (some "")).2.store.routes
        = some [ruleP]
    ∧ worldW.store.routes = some []
    ∧ (handleRoutesPut id none "t1" 0 "alice" worldW [ruleP] (some "")).2.audit ≠ [] := by
  refine ⟨by decide, by decide, by decide, rfl, by decide⟩

/-- The C4 counterexample store: flags with `cacheTtlMs = 0`. -/
def storeTtl0 : ConfigStore :=
  ⟨some [], some { DEFAULT_FLAGS with cacheTtlMs := 0 }, some ⟨"1", "t", "u"⟩⟩

/-- C4 counterexample: with `flags.cacheTtlMs = 0` (falsy in JS) the reload
installs `expiresAt = load time + 60000` — the `|| 60_000` default — whereas
the claim's formula `load time + max(cacheTtlMs, 5000)` gives 5000. -/
theorem c4_ttl_zero_counterexample :
    (hydrateCache id none "t" storeTtl0 none true 0 0).bundle.expiresAt = 60000
    ∧ (0 : Int) + max (0 : Int) MIN_TTL = 5000
    ∧ (60000 : Int) ≠ 5000 := by
  exact ⟨by decide, by decide, by decide⟩

/-- C4 amended: a get before `expiresAt` (unforced) returns the held bundle
with zero loads; a get at/after `expiresAt`, or with the cache invalidated,
performs exactly one load of the three records and installs a bundle with
`expiresAt = load time + max(cacheTtlMs, 5000)` — except that a zero (falsy)
`cacheTtlMs` first falls back to the 60000 default. -/
theorem c4_cache_ttl_amended (h : String → String) (envVersion : Option String)
    (iso : String) (store : ConfigStore) (b : ConfigBundle) (t0 t1 : Int)
    (frc : Bool) :
    (b.expiresAt > t0 →
      hydrateCache h envVersion iso store (some b) false t0 t1 = ⟨b, some b, 0⟩)
    ∧ (b.expiresAt ≤ t0 →
        (hydrateCache h envVersion iso store (some b) false t0 t1).loads = 1
        ∧ (hydrateCache h envVersion iso store (some b) false t0 t1).bundle.expiresAt
            = t1 + max (if (loadRawConfig envVersion iso store).flags.cacheTtlMs = 0
                  then 60000 else (loadRawConfig envVersion iso store).flags.cacheTtlMs)
                MIN_TTL)
    ∧ ((hydrateCache h envVersion iso store none frc t0 t1).loads = 1
        ∧ (hydrateCache h envVersion iso store none frc t0 t1).bundle.expiresAt
            = t1 + max (if (loadRawConfig envVersion iso store).flags.cacheTtlMs = 0
                  then 60000 else (loadRawConfig envVersion iso store).flags.cacheTtlMs)
                MIN_TTL
        ∧ (hydrateCache h envVersion iso store none frc t0 t1).cache
            = some (hydrateCache h envVersion iso store none frc t0 t1).bundle)
    ∧ ((loadRawConfig envVersion iso store).flags.cacheTtlMs ≠ 0 →
        t1 + max (if (loadRawConfig envVersion iso store).flags.cacheTtlMs = 0
              then 60000 else (loadRawConfig envVersion iso store).flags.cacheTtlMs)
            MIN_TTL
          = t1 + max (loadRawConfig envVersion iso store).flags.cacheTtlMs 5000) := by
  refine ⟨?_, ?_, ⟨rfl, rfl, rfl⟩, ?_⟩
  · intro hgt
    simp [hydrateCache, hgt]
  · intro hle
    have hng : ¬ (b.expiresAt > t0) := not_lt.mpr hle
    refine ⟨?_, ?_⟩ <;> simp [hydrateCache, hng]
  · intro hnz
    rw [if_neg hnz]
    rfl

/-- C4 witness: a fresh held bundle is returned with zero loads, an expired
one triggers exactly one reload, through the theorem. -/
theorem c4_cache_ttl_amended_witness :
    hydrateCache id none "x" storeW (some bundleW1) false 0 99 = ⟨bundleW1, some bundleW1, 0⟩
    ∧ (hydrateCache id none "x" storeW (some bundleW1) false 5 99).loads = 1 := by
  exact ⟨(c4_cache_ttl_amended id none "x" storeW bundleW1 0 99 false).1 (by decide),
    ((c4_cache_ttl_amended id none "x" storeW bundleW1 5 99 false).2.1 (by decide)).1⟩

/-- A regex oracle behaving like `new RegExp("^/casino/(.*)$")` on the request
path `"/casino/"`: full match with an empty capture group 1. -/
def rx3 : RegexExec := fun p s =>
  if p = "^/casino/(.*)$" && s = "/casino/" then some [some "/casino/", some ""]
  else none

/-- The documented default rule: RU mobile non-bot traffic on
`^/casino/(.*)$`, redirect with `bonus` projected from capture group 1. -/
def rule3 : RouteRule :=
  { id := "rule-ru-mobile-casino", enabled := some true
    rmatch := { path := some (.str "^/casino/(.*)$"), countries := some ["RU"]
                devices := some [.mobile], bots := some false }
    action := some (.redirect { target := "https://partner.example/go"
                                query := some [("bonus", .fromPathGroup (some 1))]
                                status := some 302 }) }

/-- C3 counterexample: on `GET /casino/` the rule matches with an empty
capture, and the worker still answers with a 302 redirect whose query omits
`bonus` — it does not pass the request through to the origin as the claim
states. -/
theorem c3_empty_capture_counterexample :
    routeRequest puId rx3 [rule3] "/casino/" "RU" .mobile false []
      = .respond { status := 302, headers := [("Location", "https://partner.example/go")] }
    := by decide

/-- C3 amended: when the projected capture is empty or missing, the query
projection leaves the parameters untouched (the parameter is omitted, never
set to an empty value) but the redirect is still issued; only the legacy
worker's `__pathToParam` slug guard falls through to origin pass-through
when no segment is produced. -/
theorem c3_empty_capture_amended :
    (∀ (pm : Option (List (Option String))) (ps : List (String × String))
        (k : String) (n : Option Nat),
      captureAt pm (n.getD 0) = "" →
        applyQueryEntry pm ps (k, .fromPathGroup n) = ps)
    ∧ (∀ (pm : Option (List (Option String))) (ps : List (String × String))
        (k : String) (n : Option Nat),
      captureAt pm (n.getD 0) ≠ "" →
        applyQueryEntry pm ps (k, .fromPathGroup n)
          = setParam ps k (captureAt pm (n.getD 0)))
    ∧ (∀ (parseUrl : String → Url) (rule : RouteRule)
        (pm : Option (List (Option String))) (q : List (String × String))
        (c : String) (d : Device) (a : RedirectAction),
      rule.action = some (.redirect a) →
        (executeRoute parseUrl ⟨rule, pm⟩ q c d).status = a.status.getD 302
        ∧ (executeRoute parseUrl ⟨rule, pm⟩ q c d).headers.map Prod.fst = ["Location"])
    ∧ (∀ (ep : List (String × String)) (path : String),
      lookupStr ep "__pathToParam" ≠ "" → legacySegOf ep path = none →
        legacySlugGuardPass ep path = true) := by
  refine ⟨?_, ?_, ?_, ?_⟩
  · intro pm ps k n hcap
    simp [applyQueryEntry, hcap]
  · intro pm ps k n hcap
    simp [applyQueryEntry, hcap]
  · intro parseUrl rule pm q c d a ha
    have hexec : executeRoute parseUrl ⟨rule, pm⟩ q c d
        = applyRedirect parseUrl a ⟨rule, pm⟩ q c d := by
      simp only [executeRoute]
      rw [ha]
    rw [hexec]
    exact ⟨rfl, rfl⟩
  · intro ep path hneed hseg
    unfold legacySlugGuardPass
    rw [if_pos hneed, hseg]
    rfl

/-- C3 amended witness: the empty capture of the counterexample input leaves
the parameter list untouched, and the legacy guard passes through on
`/casino/`, through the theorem. -/
theorem c3_empty_capture_amended_witness :
    applyQueryEntry (some [some "/casino/", some ""]) []
        ("bonus", .fromPathGroup (some 1)) = []
    ∧ legacySlugGuardPass [("__pathToParam", "bonus"), ("__stripPrefix", "/casino")]
        "/casino/" = true := by
  exact ⟨c3_empty_capture_amended.1 (some [some "/casino/", some ""]) [] "bonus"
      (some 1) (by decide),
    c3_empty_capture_amended.2.2.2 [("__pathToParam", "bonus"),
      ("__stripPrefix", "/casino")] "/casino/" (by decide) (by decide)⟩

/-- A regex oracle matching `^/casino/(.*)$` on `/casino/spins`. -/
def rx6 : RegexExec := fun p s =>
  if p = "^/casino/(.*)$" && s = "/casino/spins" then
    some [some "/casino/spins", some "spins"]
  else none

/-- C6 counterexample: a matched redirect rule executed by the action
executor produces a response without any `Cache-Control` header — only
`Location` is set. -/
theorem c6_redirect_no_cache_control_counterexample :
    (matchRoute rx6 rule3 "/casino/spins" "RU" .mobile false).isSome = true
    ∧ headersHas (executeRoute puId ⟨rule3, some [some "/casino/spins", some "spins"]⟩
        [] "RU" .mobile).headers "Cache-Control" = false := by
  exact ⟨by decide, by decide⟩

/-- C6 amended: the main worker's `applyRedirect` responses carry exactly the
`Location` header (no `Cache-Control` at all); it is the variant worker's
fetch handler that stamps `Cache-Control: no-store` onto its redirect
responses. -/
theorem c6_cache_control_amended (parseUrl : String → Url) (a : RedirectAction)
    (ctx : MatchContext) (q : List (String × String)) (c : String) (d : Device)
    (url : String) (s : Nat) :
    (applyRedirect parseUrl a ctx q c d).headers.map Prod.fst = ["Location"]
    ∧ headersHas (applyRedirect parseUrl a ctx q c d).headers "Cache-Control" = false
    ∧ ("Cache-Control", "no-store") ∈ (variantRedirectResponse url s).headers
    ∧ headersHas (variantRedirectResponse url s).headers "Cache-Control" = true := by
  have hne : ¬ (strLower "Location" = strLower "Cache-Control") := by decide
  refine ⟨rfl, ?_, ?_, ?_⟩
  · simp only [applyRedirect, responseRedirect, headersHas, List.any_cons, List.any_nil,
      Bool.or_false]
    rfl
  · simp [variantRedirectResponse, responseRedirect, headersSet, hne]
  · simp only [variantRedirectResponse, responseRedirect, headersSet, if_neg hne,
      headersHas, List.any_cons, List.any_nil]
    rfl

/-- C8: the variant worker's `classifyDevice` gives an unambiguous
`Sec-CH-UA-Mobile` hint authority over the user agent (`?1`/`1` forces
mobile, `?0`/`0` forces desktop, whatever the UA); without a hint the UA
heuristics run with the tablet/desktop negative signals checked before the
mobile positive signals and desktop as the default — as does the main
worker's `detectDevice`, which checks tablet keywords first and defaults to
desktop. -/
theorem c8_device_classification_precedence :
    (∀ (mrt : String → Bool) (ua : Option String),
      classifyDevice (some "?1") ua mrt = .mobile
      ∧ classifyDevice (some "1") ua mrt = .mobile)
    ∧ (∀ (mrt : String → Bool) (ua : Option String),
      classifyDevice (some "?0") ua mrt = .desktop
      ∧ classifyDevice (some "0") ua mrt = .desktop)
    ∧ (∀ (mrt : String → Bool) (ua : String), negativeSignalTest ua = true →
      classifyDevice none (some ua) mrt = .desktop)
    ∧ (∀ (mrt : String → Bool) (ua : String), ua ≠ "" →
      negativeSignalTest ua = false → wordBounded ua "mobile" = true →
      classifyDevice none (some ua) mrt = .mobile)
    ∧ (∀ (mrt : String → Bool) (ua : String),
      negativeSignalTest ua = false → wordBounded ua "mobile" = false →
      mrt ua = false → classifyDevice none (some ua) mrt = .desktop)
    ∧ (∀ ua : String, ua ≠ "" →
      (strIncludes (strLower ua) "ipad" || strIncludes (strLower ua) "tablet") = true →
      detectDevice ua = .tablet)
    ∧ detectDevice "" = .desktop := by
  refine ⟨fun mrt ua => ⟨rfl, rfl⟩, fun mrt ua => ⟨rfl, rfl⟩, ?_, ?_, ?_, ?_, rfl⟩
  · intro mrt ua hneg
    by_cases hua : ua = ""
    · subst hua; rfl
    · simp [classifyDevice, classifyByUa, hua, hneg]
  · intro mrt ua hua hneg hword
    simp [classifyDevice, classifyByUa, hua, hneg, hword]
  · intro mrt ua hneg hword hmrt
    by_cases hua : ua = ""
    · subst hua; rfl
    · simp [classifyDevice, classifyByUa, hua, hneg, hword, hmrt]
  · intro ua hne htab
    simp [detectDevice, hne, htab]

/-- C8 witness: concrete hintless user agents classified through the
theorem — a tablet negative signal beats a permissive mobile regex, a
word-bounded `Mobile` token wins, anything signal-free defaults to desktop,
and `detectDevice` sends `Android Tablet` to tablet. -/
theorem c8_device_classification_precedence_witness :
    classifyDevice none (some "iPad Safari") (fun _ => true) = .desktop
    ∧ classifyDevice none (some "Nokia Mobile Browser") (fun _ => false) = .mobile
    ∧ classifyDevice none (some "CERN-LineMode") (fun _ => false) = .desktop
    ∧ detectDevice "Android Tablet" = .tablet := by
  refine ⟨c8_device_classification_precedence.2.2.1 (fun _ => true) "iPad Safari"
      (by decide),
    c8_device_classification_precedence.2.2.2.1 (fun _ => false) "Nokia Mobile Browser"
      (by decide) (by decide) (by decide),
    c8_device_classification_precedence.2.2.2.2.1 (fun _ => false) "CERN-LineMode"
      (by decide) (by decide) rfl,
    c8_device_classification_precedence.2.2.2.2.2.1 "Android Tablet"
      (by decide) (by decide)⟩

end MiniTds

